import Mathlib

/-!
Shallow embedding of the `MachInfo` component declared in
`AppleALC/kern_mach.hpp` (class `MachInfo`): Mach-O image descriptor state,
header parsing, symbol resolution, kernel-base discovery and write-protection
control.  The repository ships only the header `kern_mach.hpp` (field
declarations, constants and doc comments); the member-function bodies are not
under `src/`, so each operation below is modelled from the specification, as
marked in its doc comment.  Machine integers are modelled as `Nat` with
explicit reduction modulo `2 ^ 64` where wrap-around matters.
-/

namespace MachInfo

/-- Cardinality of the 64-bit machine-word type (`mach_vm_address_t` and
friends are unsigned 64-bit integers). -/
def u64 : Nat := 2 ^ 64

/-- `PAGE_SIZE_64` on x86-64. -/
def pageSize : Nat := 4096

/-- `MachInfo::HeaderSize = PAGE_SIZE_64 * 2` (from `kern_mach.hpp`): each
Mach-O header together with its load commands is assumed to fit two pages. -/
def HeaderSize : Nat := pageSize * 2

/-- 64-bit Mach-O header magic `MH_MAGIC_64`. -/
def MH_MAGIC_64 : Nat := 0xfeedfacf

/-- Mach-O load-command identifier `LC_SEGMENT_64`. -/
def LC_SEGMENT_64 : Nat := 0x19

/-- Mach-O load-command identifier `LC_SYMTAB`. -/
def LC_SYMTAB : Nat := 0x2

/-- Mach-O load-command identifier `LC_UUID`. -/
def LC_UUID : Nat := 0x1b

/-- Mach-O symbol-type mask for debug (stab) entries. -/
def N_STAB : Nat := 0xe0

/-- Mach-O symbol-type flag for externally-defined symbols. -/
def N_EXT : Nat := 0x1

/-- A 64-bit symbol-table entry as the resolver consumes it (spec §4.4: "each
entry: a string-table offset, type/section flags, and a disk-relative
value"). -/
structure Nlist64 where
  n_strx : Nat
  n_type : Nat
  n_value : Nat
deriving DecidableEq, Repr

/-- Parsed content of the metadata (`__LINKEDIT`) buffer: the symbol table in
file-table order plus the string table, modelled as a map from string-table
offsets to names. -/
structure Linkedit where
  symbols : List Nlist64
  strTab : Nat → String

/-- Image-descriptor state: the private fields of class `MachInfo` declared in
`kern_mach.hpp` lines 22-35, with owned raw buffers modelled as `Option`
values (`none` = `nullptr`). -/
structure State where
  running_text_addr : Nat
  disk_text_addr : Nat
  kaslr_slide : Nat
  file_buf : Option (List Nat)
  linkedit_buf : Option Linkedit
  linkedit_fileoff : Nat
  linkedit_size : Nat
  symboltable_fileoff : Nat
  symboltable_nr_symbols : Nat
  stringtable_fileoff : Nat
  running_mh : Option Nat
  fat_offset : Nat
  memory_size : Nat
  kaslr_slide_set : Bool

/-- Freshly constructed descriptor: the brace-initializers of the field
declarations in `kern_mach.hpp` (all zero / null, `memory_size = HeaderSize`,
`kaslr_slide_set = false`). -/
def initState : State where
  running_text_addr := 0
  disk_text_addr := 0
  kaslr_slide := 0
  file_buf := none
  linkedit_buf := none
  linkedit_fileoff := 0
  linkedit_size := 0
  symboltable_fileoff := 0
  symboltable_nr_symbols := 0
  stringtable_fileoff := 0
  running_mh := none
  fat_offset := 0
  memory_size := HeaderSize
  kaslr_slide_set := false

/-- Modelled from the spec (§3, §4.6; the bodies of `getRunningAddresses` and
`processMachHeader` are not under `src/`): once both base addresses are known
(nonzero), record `slide = runningBaseAddress - diskBaseAddress` (64-bit
wrap-around arithmetic) and raise the explicit is-set flag; otherwise leave
the slide unknown. -/
def updateSlide (s : State) : State :=
  if s.running_text_addr ≠ 0 ∧ s.disk_text_addr ≠ 0 then
    { s with
      kaslr_slide := (s.running_text_addr + u64 - s.disk_text_addr % u64) % u64
      kaslr_slide_set := true }
  else s

/-- Modelled from the spec (§4.6 `getRunningAddresses`, body not under
`src/`): record the running `__TEXT` base address and recompute the slide. -/
def resolveRunningBase (s : State) (addr : Nat) : State :=
  updateSlide { s with running_text_addr := addr }

/-- Modelled from the spec (§4.3 `processMachHeader` on the disk image, body
not under `src/`): record the on-disk `__TEXT` base address and recompute the
slide. -/
def resolveDiskBase (s : State) (addr : Nat) : State :=
  updateSlide { s with disk_text_addr := addr }

/-- Modelled from the spec (§4.4): a symbol-table entry is a candidate for
name `name` when it is externally-defined (`N_EXT` set), not a debug entry
(no `N_STAB` bits), and its string-table name equals `name` exactly. -/
def symMatches (le : Linkedit) (name : String) (e : Nlist64) : Bool :=
  (e.n_type &&& N_STAB == 0) && (e.n_type &&& N_EXT == N_EXT)
    && (le.strTab e.n_strx == name)

/-- Modelled from the spec (§4.4 `solveSymbol`, body not under `src/`; only
declared at `kern_mach.hpp:180`): requires the metadata buffer and resolved
running/disk addresses; linearly scans the symbol table in file-table order,
and on the first exact match of an externally-defined non-debug entry returns
`runningBaseAddress + (entryValue - diskBaseAddress)` in 64-bit arithmetic;
returns the sentinel `0` otherwise. -/
def solveSymbol (s : State) (name : String) : Nat :=
  match s.linkedit_buf with
  | none => 0
  | some le =>
    if s.kaslr_slide_set then
      match le.symbols.find? (symMatches le name) with
      | some e => (s.running_text_addr + (e.n_value + u64 - s.disk_text_addr % u64)) % u64
      | none => 0
    else 0

/-- Modelled from the spec (§4.6 `deinit`, body not under `src/`; declared at
`kern_mach.hpp:153`): release both owned buffers and reset the flags.  The
returned `Nat` counts how many buffer releases the call performs, so that
"each buffer is released exactly once" is expressible. -/
def deinit (s : State) : State × Nat :=
  ({ s with
      file_buf := none
      linkedit_buf := none
      kaslr_slide := 0
      kaslr_slide_set := false },
   (if s.file_buf.isSome then 1 else 0) + (if s.linkedit_buf.isSome then 1 else 0))

/-- Modelled from the spec (§4.2 `readLinkedit`, body not under `src/`;
declared at `kern_mach.hpp:103`): locate the metadata load command recorded
in the descriptor (`linkedit_size = 0` meaning it was never found), allocate
the buffer (`allocOk = false` models allocation failure), and read the exact
byte range from disk (`diskRead off sz = none` models a short read).  Returns
the new state and `true` on success (`KERN_SUCCESS`). -/
def readLinkedit (s : State) (allocOk : Bool)
    (diskRead : Nat → Nat → Option Linkedit) : State × Bool :=
  if s.linkedit_size = 0 then (s, false)
  else if allocOk = false then (s, false)
  else
    match diskRead (s.fat_offset + s.linkedit_fileoff) s.linkedit_size with
    | none => (s, false)
    | some le => ({ s with linkedit_buf := some le }, true)

/-- Modelled from the spec (§4.2 `readFileSize`, body not under `src/`;
doc comment at `kern_mach.hpp:195-203`: "return file size or 0"): query the
file size through the borrowed vnode/context (`none` models a failed
attribute query) and return the size, or the sentinel `0` on failure. -/
def readFileSize (sizeQuery : Option Nat) : Nat :=
  match sizeQuery with
  | some sz => sz
  | none => 0

/-- Raw byte buffer (each element intended as one byte). -/
abbrev Bytes := List Nat

/-- Byte fetched from a buffer; out-of-range positions yield `0` (modelling a
raw, unchecked memory access, which the parser must never perform out of
bounds). -/
def getByte (buf : Bytes) (i : Nat) : Nat := buf.getD i 0

/-- Little-endian 16-bit read from a buffer. -/
def readU16 (buf : Bytes) (i : Nat) : Nat :=
  getByte buf i + 256 * getByte buf (i + 1)

/-- Little-endian 32-bit read from a buffer. -/
def readU32 (buf : Bytes) (i : Nat) : Nat :=
  readU16 buf i + 65536 * readU16 buf (i + 2)

/-- Little-endian 64-bit read from a buffer. -/
def readU64 (buf : Bytes) (i : Nat) : Nat :=
  readU32 buf i + 4294967296 * readU32 buf (i + 4)

/-- Contiguous chunk of `n` bytes starting at position `i`. -/
def readChunk (buf : Bytes) (i n : Nat) : List Nat :=
  (List.range n).map fun k => getByte buf (i + k)

/-- The 16-byte `segname` field content naming the `__TEXT` segment. -/
def segTEXT : List Nat :=
  [0x5f, 0x5f, 0x54, 0x45, 0x58, 0x54, 0, 0, 0, 0, 0, 0, 0, 0, 0, 0]

/-- The 16-byte `segname` field content naming the `__LINKEDIT` segment. -/
def segLINKEDIT : List Nat :=
  [0x5f, 0x5f, 0x4c, 0x49, 0x4e, 0x4b, 0x45, 0x44, 0x49, 0x54, 0, 0, 0, 0, 0, 0]

/-- Layout information extracted from a Mach-O header by the layout parser
(spec §4.3): `__TEXT` geometry, `__LINKEDIT` file range, symbol/string table
offsets and the LC_UUID value (as the two 64-bit halves `getUUID` exposes). -/
structure Parsed where
  disk_text_addr : Nat := 0
  text_vmsize : Nat := 0
  linkedit_fileoff : Nat := 0
  linkedit_size : Nat := 0
  symboltable_fileoff : Nat := 0
  symboltable_nr_symbols : Nat := 0
  stringtable_fileoff : Nat := 0
  uuid : Option (Nat × Nat) := none
deriving DecidableEq, Repr

/-- Modelled from the spec (§4.3, body of `processMachHeader` not under
`src/`): interpret one load command at offset `off` with declared size
`cmdsize` (caller has already validated `off + cmdsize ≤ limit ≤ capacity`).
Recognized commands record their fields; a recognized command too small to
hold its fixed-size payload is skipped rather than read past.  Returns the
updated record together with the access log: every `(start, len)` byte range
read beyond the `cmd`/`cmdsize` words themselves. -/
def recognizeCmd (buf : Bytes) (off cmdsize : Nat) (p : Parsed) :
    Parsed × List (Nat × Nat) :=
  let cmd := readU32 buf off
  if cmd = LC_SEGMENT_64 then
    if 72 ≤ cmdsize then
      let segname := readChunk buf (off + 8) 16
      if segname = segTEXT then
        ({ p with disk_text_addr := readU64 buf (off + 24),
                  text_vmsize := readU64 buf (off + 32) },
         [(off + 8, 16), (off + 24, 8), (off + 32, 8)])
      else if segname = segLINKEDIT then
        ({ p with linkedit_fileoff := readU64 buf (off + 40),
                  linkedit_size := readU64 buf (off + 48) },
         [(off + 8, 16), (off + 40, 8), (off + 48, 8)])
      else (p, [(off + 8, 16)])
    else (p, [])
  else if cmd = LC_SYMTAB then
    if 24 ≤ cmdsize then
      ({ p with symboltable_fileoff := readU32 buf (off + 8),
                symboltable_nr_symbols := readU32 buf (off + 12),
                stringtable_fileoff := readU32 buf (off + 16) },
       [(off + 8, 4), (off + 12, 4), (off + 16, 4)])
    else (p, [])
  else if cmd = LC_UUID then
    if 24 ≤ cmdsize then
      ({ p with uuid := some (readU64 buf (off + 8), readU64 buf (off + 16)) },
       [(off + 8, 8), (off + 16, 8)])
    else (p, [])
  else (p, [])

/-- Modelled from the spec (§4.3, body of `processMachHeader` not under
`src/`): walk at most `fuel` load commands starting at `off`, never trusting
a declared `cmdsize` before checking the command lies inside `limit`; a
command whose declared extent passes `limit` is a parse failure (`none`).
Unrecognized commands are skipped by their declared size (length-prefixed
traversal).  The second component logs every byte range read. -/
def walkCmds (buf : Bytes) : Nat → Nat → Nat → Parsed →
    Option Parsed × List (Nat × Nat)
  | 0, _, _, p => (some p, [])
  | fuel + 1, off, limit, p =>
    if off + 8 ≤ limit then
      let cmdsize := readU32 buf (off + 4)
      if 8 ≤ cmdsize ∧ off + cmdsize ≤ limit then
        let r1 := recognizeCmd buf off cmdsize p
        let r2 := walkCmds buf fuel (off + cmdsize) limit r1.1
        (r2.1, (off, 4) :: (off + 4, 4) :: (r1.2 ++ r2.2))
      else (none, [(off, 4), (off + 4, 4)])
    else (none, [])

/-- Modelled from the spec (§4.3 `processMachHeader`, body not under `src/`;
declared at `kern_mach.hpp:110`): read `ncmds` and `sizeofcmds` from the
64-bit Mach header, validate the declared total command size against the
owned buffer capacity `HeaderSize` before any use, then walk the command
stream.  Returns the parsed layout (or `none` on a bounds violation) and the
log of every byte range read from the buffer. -/
def processMachHeader (buf : Bytes) : Option Parsed × List (Nat × Nat) :=
  let ncmds := readU32 buf 16
  let sizeofcmds := readU32 buf 20
  if 32 + sizeofcmds ≤ HeaderSize then
    let r := walkCmds buf ncmds 32 (32 + sizeofcmds) {}
    (r.1, (16, 4) :: (20, 4) :: r.2)
  else (none, [(16, 4), (20, 4)])

/-- Every byte range in the access log lies within a buffer of capacity
`cap`. -/
def logInBounds (cap : Nat) (log : List (Nat × Nat)) : Prop :=
  ∀ e ∈ log, e.1 + e.2 ≤ cap

/-- Modelled from the spec (§4.3; body of `getUUID` not under `src/`): scan
at most `fuel` load commands for `LC_UUID` and return its 16-byte value as
two 64-bit halves; `none` when the walk ends, goes out of bounds, or the
command is absent. -/
def findUUID (buf : Bytes) : Nat → Nat → Nat → Option (Nat × Nat)
  | 0, _, _ => none
  | fuel + 1, off, limit =>
    if off + 8 ≤ limit then
      let cmdsize := readU32 buf (off + 4)
      if 8 ≤ cmdsize ∧ off + cmdsize ≤ limit then
        if readU32 buf off = LC_UUID ∧ 24 ≤ cmdsize then
          some (readU64 buf (off + 8), readU64 buf (off + 16))
        else findUUID buf fuel (off + cmdsize) limit
      else none
    else none

/-- Modelled from the spec (doc comment `kern_mach.hpp:64-71`: "return UUID
or nullptr"; body not under `src/`): the LC_UUID value of a header, `none`
when the header pointer is null or the build-identifier command is absent. -/
def getUUID (header : Option Bytes) : Option (Nat × Nat) :=
  match header with
  | none => none
  | some buf =>
    findUUID buf (readU32 buf 16) 32 (min (32 + readU32 buf 20) HeaderSize)

/-- Modelled from the spec (§6 `isCurrentKernel`: "build-identifier
equality"; body not under `src/`, declared at `kern_mach.hpp:229`): true
exactly when both the running kernel header and the passed header carry a
UUID command and the two identifiers are equal. -/
def isCurrentKernel (runningHeader kernelHeader : Option Bytes) : Bool :=
  match getUUID runningHeader, getUUID kernelHeader with
  | some a, some b => a == b
  | _, _ => false

/-- Byte of raw memory, modelled as a total function from addresses. -/
def byteAt (mem : Nat → Nat) (i : Nat) : Nat := mem i % 256

/-- Little-endian 16-bit read from raw memory. -/
def readU16m (mem : Nat → Nat) (i : Nat) : Nat :=
  byteAt mem i + 256 * byteAt mem (i + 1)

/-- Little-endian 32-bit read from raw memory. -/
def readU32m (mem : Nat → Nat) (i : Nat) : Nat :=
  readU16m mem i + 65536 * readU16m mem (i + 2)

/-- Modelled from the spec (§4.1; body of `calculateInt80Address` not under
`src/`; the 16-byte gate layout is `struct descriptor_idt` at
`kern_mach.hpp:40-48`): read the gate descriptor at vector `0x80` of the IDT
and reassemble the handler address from `offset_low` (byte 0),
`offset_middle` (byte 6) and `offset_high` (byte 8). -/
def calculateInt80Address (mem : Nat → Nat) (idtBase : Nat) : Nat :=
  let dsc := idtBase + 0x80 * 16
  readU16m mem dsc + readU16m mem (dsc + 6) * 2 ^ 16 + readU32m mem (dsc + 8) * 2 ^ 32

/-- Modelled from the spec (§4.1, §9: the backward scan "requires an
explicit, configured maximum scan distance"; the exact bound is not fixed by
the spec). -/
def maxScanAttempts : Nat := 4096

/-- Modelled from the spec (§4.1; body of `findKernelBase` not under
`src/`): scan backward page-by-page, at most `fuel` pages, for the 64-bit
Mach header magic; `0` when the bound (or the bottom of memory) is reached
without a hit. -/
def scanPages (mem : Nat → Nat) : Nat → Nat → Nat
  | _, 0 => 0
  | addr, fuel + 1 =>
    if readU32m mem addr = MH_MAGIC_64 then addr
    else if addr < pageSize then 0
    else scanPages mem (addr - pageSize) fuel

/-- Modelled from the spec (§4.1 `findKernelBase`, body not under `src/`;
declared at `kern_mach.hpp:211`): derive the int80 handler address from the
IDT, align it down to a page boundary, and scan backward for the Mach header
magic within the configured bound; sentinel `0` on failure. -/
def findKernelBase (mem : Nat → Nat) (idtBase : Nat) : Nat :=
  let start := calculateInt80Address mem idtBase
  scanPages mem (start - start % pageSize) maxScanAttempts

/-- The write-protect bit of control register CR0 (bit 16). -/
def CR0_WP : Nat := 2 ^ 16

/-- Modelled from the spec (§4.5 `setWPBit`, body not under `src/`; declared
at `kern_mach.hpp:80`): read CR0, set or clear the single write-protect bit,
and write the result back.  The function maps the value read to the value
written. -/
def setWPBit (cr0 : Nat) (enable : Bool) : Nat :=
  if enable then cr0 ||| CR0_WP else cr0 ^^^ (cr0 &&& CR0_WP)

/-- Modelled from the spec (§4.5: `setKernelWriting` "is the same operation";
body not under `src/`, declared at `kern_mach.hpp:220`). -/
def setKernelWriting (cr0 : Nat) (enable : Bool) : Nat :=
  setWPBit cr0 enable

/-- Synthetic metadata buffer for the round-trip scenario of spec §8: a
non-matching external symbol named `T`, then the symbol `S` with
disk-relative value `V = 0x1500`. -/
def synthLinkedit : Linkedit where
  symbols := [⟨1, 0x0f, 0x2000⟩, ⟨4, 0x0f, 0x1500⟩]
  strTab := fun n => if n = 4 then "S" else "T"

/-- Synthetic resolved descriptor: disk `__TEXT` base `A = 0x1000`, running
base `A + K = 0x9000` (slide `K = 0x8000`), metadata buffer present. -/
def synthState : State :=
  { initState with
    running_text_addr := 0x9000
    disk_text_addr := 0x1000
    kaslr_slide := 0x8000
    kaslr_slide_set := true
    linkedit_buf := some synthLinkedit }

/-- A descriptor owning both buffers (as after a successful `init`). -/
def sampleLoaded : State :=
  { initState with
    file_buf := some [0]
    linkedit_buf := some synthLinkedit }

/-- A malformed header whose declared `sizeofcmds` (`0x7fffffff`, read at
offset 20) vastly exceeds the `HeaderSize` buffer capacity. -/
def badHeaderBuf : Bytes := List.replicate 20 0 ++ [0xff, 0xff, 0xff, 0x7f]

/-- `List.find?` returns the head of the first matching suffix: if nothing in
`pre` matches and `e` matches, the scan of `pre ++ e :: post` yields `e`. -/
theorem findFirstMatch {α : Type} (p : α → Bool) (pre post : List α) (e : α)
    (hpre : ∀ x ∈ pre, p x = false) (he : p e = true) :
    (pre ++ e :: post).find? p = some e := by
  induction pre with
  | nil => simp [List.find?, he]
  | cons a l ih =>
    have ha : p a = false := hpre a (by simp)
    simp only [List.cons_append, List.find?, ha]
    exact ih fun x hx => hpre x (by simp [hx])

/-- C1: for a descriptor with resolved running/disk addresses and a present
metadata buffer, `solveSymbol` returns
`runningBaseAddress + (entryValue - diskBaseAddress)` (64-bit arithmetic) for
the first symbol-table entry in file-table order that is externally-defined,
non-debug, and whose string-table name equals the requested name exactly. -/
theorem solveSymbol_first_match (s : State) (le : Linkedit) (name : String)
    (pre post : List Nlist64) (e : Nlist64)
    (hbuf : s.linkedit_buf = some le)
    (hset : s.kaslr_slide_set = true)
    (hsyms : le.symbols = pre ++ e :: post)
    (hpre : ∀ x ∈ pre, symMatches le name x = false)
    (he : symMatches le name e = true) :
    solveSymbol s name
      = (s.running_text_addr + (e.n_value + u64 - s.disk_text_addr % u64)) % u64 := by
  have hf : le.symbols.find? (symMatches le name) = some e := by
    rw [hsyms]
    exact findFirstMatch _ pre post e hpre he
  simp [solveSymbol, hbuf, hset, hf]

/-- Witness for C1, the round-trip of spec §8 with `A = 0x1000`,
`V = 0x1500`, `K = 0x8000`: `solveSymbol "S" = A + K + (V - A) = 0x9500`. -/
theorem solveSymbol_first_match_w : solveSymbol synthState "S" = 0x9500 := by
  have h := solveSymbol_first_match synthState synthLinkedit "S"
      [⟨1, 0x0f, 0x2000⟩] [] ⟨4, 0x0f, 0x1500⟩ rfl rfl rfl
      (by decide) (by decide)
  refine h.trans ?_
  norm_num [synthState, initState, u64]

/-- C3: with both base addresses known (nonzero), the recorded slide is
`runningBaseAddress - diskBaseAddress` (64-bit arithmetic) in either
resolution order, the is-set flag is raised; with only one address known the
flag stays down, as in the fresh descriptor. -/
theorem slide_order_independent (r d : Nat) (hr : r ≠ 0) (hd : d ≠ 0) :
    (resolveDiskBase (resolveRunningBase initState r) d).kaslr_slide
        = (r + u64 - d % u64) % u64
    ∧ (resolveRunningBase (resolveDiskBase initState d) r).kaslr_slide
        = (r + u64 - d % u64) % u64
    ∧ (resolveDiskBase (resolveRunningBase initState r) d).kaslr_slide_set = true
    ∧ (resolveRunningBase (resolveDiskBase initState d) r).kaslr_slide_set = true
    ∧ (resolveRunningBase initState r).kaslr_slide_set = false
    ∧ (resolveDiskBase initState d).kaslr_slide_set = false
    ∧ initState.kaslr_slide_set = false := by
  refine ⟨?_, ?_, ?_, ?_, ?_, ?_, rfl⟩ <;>
    simp [resolveDiskBase, resolveRunningBase, updateSlide, initState, hr, hd]

/-- Witness for C3 at `r = d = 0x5000`: the flag distinguishes the legal
slide of exactly zero from the unset fresh state. -/
theorem slide_order_independent_w :
    (resolveDiskBase (resolveRunningBase initState 0x5000) 0x5000).kaslr_slide = 0
    ∧ (resolveDiskBase (resolveRunningBase initState 0x5000) 0x5000).kaslr_slide_set = true
    ∧ initState.kaslr_slide_set = false := by
  have h := slide_order_independent 0x5000 0x5000 (by decide) (by decide)
  exact ⟨h.1.trans (by norm_num [u64]), h.2.2.1, h.2.2.2.2.2.2⟩

/-- C4: `solveSymbol` returns the sentinel `0` whenever the metadata buffer
is absent, or the addresses are not yet resolved, or no symbol-table entry
matches the name.  (The state is unchanged by construction: the resolver is
embedded as a pure function of the descriptor.) -/
theorem solveSymbol_sentinel (s : State) (name : String)
    (h : s.linkedit_buf = none ∨ s.kaslr_slide_set = false ∨
      ∀ le, s.linkedit_buf = some le → le.symbols.find? (symMatches le name) = none) :
    solveSymbol s name = 0 := by
  rcases hbuf : s.linkedit_buf with _ | le
  · simp [solveSymbol, hbuf]
  · rcases h with h | h | h
    · simp [hbuf] at h
    · simp [solveSymbol, hbuf, h]
    · simp [solveSymbol, hbuf, h le hbuf]

/-- Witness for C4: a fresh descriptor (no metadata buffer) yields `0`. -/
theorem solveSymbol_sentinel_w : solveSymbol initState "S" = 0 :=
  solveSymbol_sentinel initState "S" (Or.inl rfl)

/-- C5: whenever `readLinkedit` fails (metadata command never located,
allocation failure, or short read), the descriptor is exactly its pre-call
state; in particular no partial metadata buffer is retained. -/
theorem readLinkedit_failure_preserves_state (s : State) (allocOk : Bool)
    (dr : Nat → Nat → Option Linkedit)
    (h : (readLinkedit s allocOk dr).2 = false) :
    (readLinkedit s allocOk dr).1 = s := by
  by_cases h0 : s.linkedit_size = 0
  · simp [readLinkedit, h0]
  · by_cases h1 : allocOk = false
    · simp [readLinkedit, h0, h1]
    · rcases h2 : dr (s.fat_offset + s.linkedit_fileoff) s.linkedit_size with _ | le
      · simp [readLinkedit, h0, h1, h2]
      · exact absurd h (by simp [readLinkedit, h0, h1, h2])

/-- Witness for C5: a short read (disk yields nothing) on a descriptor with a
located metadata command leaves the descriptor unchanged. -/
theorem readLinkedit_failure_preserves_state_w :
    (readLinkedit { initState with linkedit_size := 64 } true fun _ _ => none).1
      = { initState with linkedit_size := 64 } :=
  readLinkedit_failure_preserves_state _ true _ (by simp [readLinkedit, initState])

/-- C6: `deinit` is idempotent: a second call changes nothing and performs
zero further buffer releases (so each owned buffer is released exactly once,
two releases when both are owned), and after `deinit` both buffers are null
and the slide flag is reset — from every reachable descriptor state,
including those left by a failed or partial `init`. -/
theorem deinit_idempotent (s : State) :
    (deinit (deinit s).1).1 = (deinit s).1
    ∧ (deinit (deinit s).1).2 = 0
    ∧ (deinit s).1.file_buf = none
    ∧ (deinit s).1.linkedit_buf = none
    ∧ (deinit s).1.kaslr_slide_set = false
    ∧ (s.file_buf.isSome = true → s.linkedit_buf.isSome = true → (deinit s).2 = 2) := by
  refine ⟨?_, ?_, ?_, ?_, ?_, ?_⟩
  · simp [deinit]
  · simp [deinit]
  · simp [deinit]
  · simp [deinit]
  · simp [deinit]
  · intro h1 h2
    simp [deinit, h1, h2]

/-- Witness for C6: on a descriptor owning both buffers, the first `deinit`
performs two releases and the second performs none. -/
theorem deinit_idempotent_w :
    (deinit sampleLoaded).2 = 2 ∧ (deinit (deinit sampleLoaded).1).2 = 0 :=
  ⟨(deinit_idempotent sampleLoaded).2.2.2.2.2 rfl rfl,
   (deinit_idempotent sampleLoaded).2.1⟩

/-- C9: `readFileSize` reports the true size when the underlying attribute
query succeeds and the sentinel `0` when it fails — its only output channel —
so a zero-byte file is indistinguishable from a failed query. -/
theorem readFileSize_sentinel (q : Option Nat) :
    (∀ sz, q = some sz → readFileSize q = sz)
    ∧ (q = none → readFileSize q = 0)
    ∧ readFileSize (some 0) = readFileSize none := by
  rcases q with _ | sz <;> simp [readFileSize]

/-- Witness for C9: failed query gives `0`; a successful query gives the
size. -/
theorem readFileSize_sentinel_w : readFileSize none = 0 ∧ readFileSize (some 5) = 5 :=
  ⟨(readFileSize_sentinel none).2.1 rfl, (readFileSize_sentinel (some 5)).1 5 rfl⟩

/-- C8: the value `setWPBit` writes back differs from the value read in at
most the single write-protect bit (bit 16), which becomes `enable`; every
other bit of the control register is unchanged; and `setKernelWriting` is the
same operation. -/
theorem setWPBit_frame (cr0 : Nat) (enable : Bool) :
    Nat.testBit (setWPBit cr0 enable) 16 = enable
    ∧ (∀ i, i ≠ 16 → Nat.testBit (setWPBit cr0 enable) i = Nat.testBit cr0 i)
    ∧ setKernelWriting cr0 enable = setWPBit cr0 enable := by
  refine ⟨?_, ?_, rfl⟩
  · have hwp : Nat.testBit CR0_WP 16 = true := by decide
    cases enable <;>
      simp [setWPBit, Nat.testBit_lor, Nat.testBit_xor, Nat.testBit_land, hwp]
  · intro i hi
    have hwp : Nat.testBit CR0_WP i = false := by
      simpa [CR0_WP] using Nat.testBit_two_pow_of_ne (Ne.symm hi)
    cases enable <;>
      simp [setWPBit, Nat.testBit_lor, Nat.testBit_xor, Nat.testBit_land, hwp]

/-- Witness for C8 on a typical CR0 value: clearing leaves bit 16 clear and
bit 0 (protected-mode enable) untouched. -/
theorem setWPBit_frame_w :
    Nat.testBit (setWPBit 0x8001003b false) 16 = false
    ∧ Nat.testBit (setWPBit 0x8001003b false) 0 = Nat.testBit 0x8001003b 0 :=
  ⟨(setWPBit_frame 0x8001003b false).1,
   (setWPBit_frame 0x8001003b false).2.1 0 (by decide)⟩

/-- C10: `isCurrentKernel` never reports a match when the build-identifier
(UUID) command is absent from either the running kernel's header or the
passed header — `getUUID` yields `none` there and equality is reported only
when both identifiers are present and equal. -/
theorem isCurrentKernel_absent_uuid (runningHeader kernelHeader : Option Bytes)
    (h : getUUID runningHeader = none ∨ getUUID kernelHeader = none) :
    isCurrentKernel runningHeader kernelHeader = false := by
  rcases h with h | h
  · cases hk : getUUID kernelHeader <;> simp [isCurrentKernel, h, hk]
  · cases hr : getUUID runningHeader <;> simp [isCurrentKernel, h, hr]

/-- Witness for C10: a null running header, and a well-formed 64-bit header
with zero load commands (hence no UUID command), both yield `false`. -/
theorem isCurrentKernel_absent_uuid_w :
    isCurrentKernel none (some (List.replicate 32 0)) = false
    ∧ isCurrentKernel (some (List.replicate 32 0)) (some (List.replicate 32 0)) = false :=
  ⟨isCurrentKernel_absent_uuid none (some (List.replicate 32 0)) (Or.inl rfl),
   isCurrentKernel_absent_uuid (some (List.replicate 32 0)) (some (List.replicate 32 0))
     (Or.inl (by decide))⟩

/-- The backward page scan returns the sentinel `0` when no address it can
visit within its fuel carries the Mach header magic. -/
theorem scanPages_no_magic (mem : Nat → Nat) :
    ∀ fuel addr,
      (∀ i, i < fuel → readU32m mem (addr - i * pageSize) ≠ MH_MAGIC_64) →
      scanPages mem addr fuel = 0 := by
  intro fuel
  induction fuel with
  | zero => intro addr _; rfl
  | succ n ih =>
    intro addr h
    have h0 : readU32m mem addr ≠ MH_MAGIC_64 := by
      have := h 0 (Nat.succ_pos n)
      simpa using this
    unfold scanPages
    rw [if_neg h0]
    by_cases hlt : addr < pageSize
    · rw [if_pos hlt]
    · rw [if_neg hlt]
      apply ih
      intro i hi
      have h' := h (i + 1) (by omega)
      have heq : addr - pageSize - i * pageSize = addr - (i + 1) * pageSize := by
        simp only [pageSize]
        omega
      rw [heq]
      exact h'

/-- C7: `findKernelBase` scans backward page-by-page from the int80 handler
address (derived from the IDT) for at most the configured iteration bound,
and returns the sentinel `0` when no 64-bit Mach header magic occurs at any
visited address — it is a total function (fuel-bounded recursion), so it
cannot loop forever on any memory content. -/
theorem findKernelBase_bounded (mem : Nat → Nat) (idtBase : Nat)
    (h : ∀ i, i < maxScanAttempts →
      readU32m mem ((calculateInt80Address mem idtBase
        - calculateInt80Address mem idtBase % pageSize) - i * pageSize)
        ≠ MH_MAGIC_64) :
    findKernelBase mem idtBase = 0 :=
  scanPages_no_magic mem maxScanAttempts
    (calculateInt80Address mem idtBase - calculateInt80Address mem idtBase % pageSize) h

/-- Witness for C7: on all-zero memory (no magic anywhere) the search fails
with the sentinel rather than diverging. -/
theorem findKernelBase_bounded_w : findKernelBase (fun _ => 0) 0 = 0 :=
  findKernelBase_bounded (fun _ => 0) 0 (by
    intro i _
    simp [readU32m, readU16m, byteAt, MH_MAGIC_64])

/-- Every byte range `recognizeCmd` reads lies inside the command's declared
extent `[off, off + cmdsize)`. -/
theorem recognizeCmd_log_le (buf : Bytes) (off cmdsize : Nat) (p : Parsed) :
    ∀ e ∈ (recognizeCmd buf off cmdsize p).2, e.1 + e.2 ≤ off + cmdsize := by
  intro e he
  simp only [recognizeCmd] at he
  split_ifs at he with h1 h2 h3 h4 h5 h6 h7 h8
  all_goals fin_cases he <;> simp <;> omega

/-- Every byte range the load-command walk reads lies inside any capacity
dominating its limit. -/
theorem walkCmds_log_le (buf : Bytes) :
    ∀ fuel off limit p cap, limit ≤ cap →
      ∀ e ∈ (walkCmds buf fuel off limit p).2, e.1 + e.2 ≤ cap := by
  intro fuel
  induction fuel with
  | zero =>
    intro off limit p cap hcap e he
    simp [walkCmds] at he
  | succ n ih =>
    intro off limit p cap hcap e he
    simp only [walkCmds] at he
    by_cases h1 : off + 8 ≤ limit
    · rw [if_pos h1] at he
      by_cases h2 : 8 ≤ readU32 buf (off + 4) ∧ off + readU32 buf (off + 4) ≤ limit
      · rw [if_pos h2] at he
        simp only [List.mem_cons, List.mem_append] at he
        rcases he with rfl | rfl | he | he
        · simp
          omega
        · simp
          omega
        · have := recognizeCmd_log_le buf off (readU32 buf (off + 4)) p e he
          omega
        · exact ih (off + readU32 buf (off + 4)) limit _ cap hcap e he
      · rw [if_neg h2] at he
        simp only [List.mem_cons, List.not_mem_nil, or_false] at he
        rcases he with rfl | rfl <;> simp <;> omega
    · rw [if_neg h1] at he
      simp at he

/-- C2: for every buffer content (malformed load-command streams included)
the header parse touches only byte ranges within the owned buffer capacity
`HeaderSize`; a declared total command size exceeding the capacity is
rejected before the walk; and a command whose declared extent passes the end
of the admissible region is a parse failure (`none`), not an out-of-bounds
access. -/
theorem processMachHeader_bounds (buf : Bytes) :
    logInBounds HeaderSize (processMachHeader buf).2
    ∧ (HeaderSize < 32 + readU32 buf 20 → (processMachHeader buf).1 = none)
    ∧ (∀ fuel off limit p, off + 8 ≤ limit →
        ¬(8 ≤ readU32 buf (off + 4) ∧ off + readU32 buf (off + 4) ≤ limit) →
        (walkCmds buf (fuel + 1) off limit p).1 = none) := by
  refine ⟨?_, ?_, ?_⟩
  · intro e he
    simp only [processMachHeader] at he
    by_cases hc : 32 + readU32 buf 20 ≤ HeaderSize
    · rw [if_pos hc] at he
      simp only [List.mem_cons] at he
      rcases he with rfl | rfl | he
      · simp [HeaderSize, pageSize]
      · simp [HeaderSize, pageSize]
      · exact walkCmds_log_le buf (readU32 buf 16) 32 (32 + readU32 buf 20) {} HeaderSize hc e he
    · rw [if_neg hc] at he
      simp only [List.mem_cons, List.not_mem_nil, or_false] at he
      rcases he with rfl | rfl <;> simp [HeaderSize, pageSize]
  · intro hgt
    simp only [processMachHeader]
    rw [if_neg (by omega)]
  · intro fuel off limit p h1 h2
    simp only [walkCmds]
    rw [if_pos h1, if_neg h2]

/-- Witness for C2: a header declaring `sizeofcmds = 0x7fffffff` is rejected
with a parse failure, and the logged reads of that parse stay within the
capacity. -/
theorem processMachHeader_bounds_w :
    (processMachHeader badHeaderBuf).1 = none ∧ 16 + 4 ≤ HeaderSize :=
  ⟨(processMachHeader_bounds badHeaderBuf).2.1 (by decide),
   (processMachHeader_bounds badHeaderBuf).1 (16, 4) (by decide)⟩

end MachInfo
